import Mathlib

/-!
Verification development for the inbound message pipeline of
`src/message-parser.js` (protocol decoder, command executor `Context`,
moderation engine, format catalog).

The JavaScript is shallowly embedded: each function of the source file is
translated into an executable Lean definition, with the mutable collaborator
objects (user registry, room, configuration, command registry) passed and
returned explicitly, and every externally observable action (room.say,
Client.send, console.log, process.exit, listener callbacks, ...) recorded in
an event trace.  Collaborators that live in repository files not provided
under `src/` (tools.js, users.js, rooms.js) are modelled from the spec and
are marked `Modelled from the spec:` in their doc comments.

Machine numbers: all protocol timestamps and point counters are integral in
the source (epoch milliseconds, point counts, bit flags), so they are
modelled as `Int`/`Nat`; the only bitwise operation (`code & flag` in
`parseFormats`) is modelled on 32-bit two's-complement residues as JS does.
-/

/-! ### Identifier normalization and small JS string helpers -/

/-- Modelled from the spec: `Tools.toId` from tools.js (not under `src/`).
The spec's glossary defines a normalized identifier as the "lowercase,
punctuation/space-stripped canonical form of a name used for registry
lookups": lowercase every character and keep only `a`-`z` and `0`-`9`. -/
def toId (s : String) : String :=
  String.mk (s.data.filterMap fun c =>
    let c2 := c.toLower
    if ('a' ≤ c2 ∧ c2 ≤ 'z') ∨ ('0' ≤ c2 ∧ c2 ≤ '9') then some c2 else none)

/-- JS `s.charAt(i)`: the one-character string at index `i`, or `""` out of range. -/
def charAt (s : String) (i : Nat) : String :=
  match s.data.get? i with
  | some c => String.mk [c]
  | none => ""

/-- JS `s.indexOf(c)` for a single character, as an `Option` (JS returns -1). -/
def indexOfChar (s : String) (c : Char) : Option Nat :=
  s.data.findIdx? (· = c)

/-- JS `s.lastIndexOf(c)` for a single character, as an `Option` (JS returns -1). -/
def lastIndexOfChar (s : String) (c : Char) : Option Nat :=
  match s.data.reverse.findIdx? (· = c) with
  | some i => some (s.data.length - 1 - i)
  | none => none

/-- JS whitespace class `\s` (the characters relevant to chat text). -/
def isJsSpace (c : Char) : Bool :=
  c = ' ' ∨ c = '\t' ∨ c = '\n' ∨ c = '\r' ∨ c = '\x0b' ∨ c = '\x0c' ∨
  c = '\u00A0' ∨ c = '\u1680' ∨ ('\u2000' ≤ c ∧ c ≤ '\u200A') ∨
  c = '\u2028' ∨ c = '\u2029' ∨ c = '\u202F' ∨ c = '\u205F' ∨
  c = '\u3000' ∨ c = '\uFEFF'

/-- Character class of the source's `nullCharactersRegex`: the NUL character
together with the range U+200B to U+200F. -/
def isNullChar (c : Char) : Bool :=
  c = '\u0000' ∨ ('\u200B' ≤ c ∧ c ≤ '\u200F')

/-- JS `String.prototype.trim`: strip the JS whitespace class from both
ends (structural, unlike the core `String.trim`, and using the JS character
class). -/
def jsTrim (s : String) : String :=
  String.mk (((s.data.dropWhile isJsSpace).reverse.dropWhile isJsSpace).reverse)

/-- Split a character list on a separator character. -/
def splitOnCharAux (c : Char) : List Char → List Char → List String
  | [], acc => [String.mk acc.reverse]
  | x :: rest, acc =>
    if x = c then String.mk acc.reverse :: splitOnCharAux c rest []
    else splitOnCharAux c rest (x :: acc)

/-- JS `s.split(sep)` for a one-character separator (the two uses in the
source split on `"|"` and on `","`). -/
def splitOnChar (s : String) (c : Char) : List String :=
  splitOnCharAux c s.data []

/-- Value of a hexadecimal digit character. -/
def hexVal (c : Char) : Option Nat :=
  if '0' ≤ c ∧ c ≤ '9' then some (c.toNat - 48)
  else if 'a' ≤ c ∧ c ≤ 'f' then some (c.toNat - 87)
  else if 'A' ≤ c ∧ c ≤ 'F' then some (c.toNat - 55)
  else none

/-- Value of a digit character in the given radix (radix at most 16 here). -/
def digitVal (radix : Nat) (c : Char) : Option Nat :=
  match hexVal c with
  | some v => if v < radix then some v else none
  | none => none

/-- Accumulate the maximal leading run of digits; `none` means no digit seen
(JS `NaN`). -/
def parseDigits (radix : Nat) : List Char → Option Nat → Option Nat
  | [], acc => acc
  | c :: rest, acc =>
    match digitVal radix c with
    | some v => parseDigits radix rest (some (acc.getD 0 * radix + v))
    | none => acc

/-- JS `parseInt(s, radix)`: skip leading whitespace, optional sign, optional
`0x` prefix when the radix is 16, then the maximal run of digits of the radix;
`none` models `NaN` (no digit found). -/
def parseIntJs (s : String) (radix : Nat) : Option Int :=
  let cs := (jsTrim s).data
  let signed : Bool × List Char :=
    match cs with
    | '-' :: rest => (true, rest)
    | '+' :: rest => (false, rest)
    | _ => (false, cs)
  let cs2 :=
    if radix = 16 then
      match signed.2 with
      | '0' :: 'x' :: rest => rest
      | '0' :: 'X' :: rest => rest
      | _ => signed.2
    else signed.2
  match parseDigits radix cs2 none with
  | some n => some (if signed.1 then -(n : Int) else (n : Int))
  | none => none

/-- JS 32-bit bitwise `a & b` (used only for truthiness tests in
`parseFormats`, so the two's-complement residue, which is zero exactly when
the JS result is zero, is returned without sign reinterpretation). -/
def jsAnd (a b : Int) : Int :=
  Int.ofNat (Nat.land (a % 4294967296).toNat (b % 4294967296).toNat)

/-- Character list `p` occurring as a contiguous segment of `l`. -/
def infixAt : List Char → List Char → Bool
  | _, [] => true
  | [], p => p.isEmpty
  | c :: rest, p => p.isPrefixOf (c :: rest) || infixAt rest p

/-- JS `sub` occurring inside `s` (`String.prototype.includes`). -/
def containsStr (s sub : String) : Bool :=
  infixAt s.data sub.data

/-! ### Association lists standing for JS objects / Maps -/

/-- Lookup in an insertion-ordered association list (a JS object / Map read). -/
def lookupAssoc {α : Type} (l : List (String × α)) (k : String) : Option α :=
  match l.find? (fun p => p.1 = k) with
  | some p => some p.2
  | none => none

/-- Write to an insertion-ordered association list (a JS object / Map write):
an existing key is overwritten in place, a new key is appended. -/
def setAssoc {α : Type} (l : List (String × α)) (k : String) (v : α) : List (String × α) :=
  if (l.find? (fun p => p.1 = k)).isSome then
    l.map (fun p => if p.1 = k then (k, v) else p)
  else l ++ [(k, v)]

/-- Delete a key (a JS Map delete). -/
def removeAssoc {α : Type} (l : List (String × α)) (k : String) : List (String × α) :=
  l.filter (fun p => p.1 ≠ k)

/-- Stable insertion into a list sorted by strictly descending key: the new
element goes after every element whose key is at least as large. -/
def insertByDesc {α : Type} (key : α → Int) (p : α) : List α → List α
  | [] => [p]
  | q :: qs => if key q < key p then p :: q :: qs else q :: insertByDesc key p qs

/-- Stable sort by descending key: the behaviour of the (stable) JS
`Array.prototype.sort` under the comparator `(a, b) => key(b) - key(a)`. -/
def sortByDesc {α : Type} (key : α → Int) (l : List α) : List α :=
  l.foldl (fun acc p => insertByDesc key p acc) []

/-! ### Data model -/

/-- One recorded chat message of a moderation record (`{message, time}` as
unshifted at line 335 of the source). -/
structure Msg where
  message : String
  time : Int
  deriving DecidableEq, Repr

/-- The per-(user, room) moderation record (`{messages: [], points: 0,
lastAction: 0}`, line 331): rolling history newest first, escalation points,
and the timestamp of the last applied punishment. -/
structure ModData where
  messages : List Msg
  points : Int
  lastAction : Int
  deriving DecidableEq, Repr

/-- One entry of the format catalog built by `parseFormats` (lines 298-305).
The source's `section` field is spelled `sect` here (`section` is a Lean
keyword). -/
structure FormatEntry where
  name : String
  id : String
  sect : String
  searchShow : Bool
  challengeShow : Bool
  tournamentShow : Bool
  deriving DecidableEq, Repr

/-- A candidate punishment produced by one moderation rule
(`{action, rule, reason}`). -/
structure Punishment where
  action : String
  rule : String
  reason : String
  deriving DecidableEq, Repr

/-- Externally observable actions of the decoder.  Callbacks that live
outside this file (room.say, Client.send/login, console.log, process.exit,
Rooms.destroy, pending listeners, command handlers, Tools.FormatCache.clear,
Client.lockdown) are recorded as trace events.  `parseCommandEntered` and
`moderateEntered` mark the two call sites inside `parse` (lines 189-190,
205-206) so that theorems can speak about which sub-systems a line reached. -/
inductive Event where
  | said (roomId text : String)
  | clientSend (text : String)
  | consoleLog (text : String)
  | loginCalled
  | setChallenge (keyId challenge : String)
  | destroyRoom (roomId : String)
  | processExit
  | listenerFired (key : String)
  | handlerCalled (command target : String)
  | parseCommandEntered
  | moderateEntered
  | lockdownSet (b : Bool)
  | formatCacheCleared
  deriving DecidableEq, Repr

/-- A JavaScript exception: either the engine's `TypeError` (raised by
`target.trim()` on `undefined`, line 62) or an error thrown by a command
handler, carrying its `stack` string. -/
inductive JsError where
  | typeError
  | raised (stack : String)
  deriving DecidableEq, Repr

/-- The `stack` property read at line 74. -/
def JsError.stack : JsError → String
  | .typeError => "TypeError: Cannot read property of undefined"
  | .raised s => s

/-- Modelled from the spec: the `User` objects of users.js (not under
`src/`), restricted to the fields the parser accesses: `id`, `name`, the
room-membership map `rooms` (room id to rank) and the moderation map
`roomData` (room id to record). -/
structure Usr where
  id : String
  name : String
  rooms : List (String × String)
  roomData : List (String × ModData)
  deriving DecidableEq, Repr

/-- Modelled from the spec: the `Room` objects of rooms.js (not under
`src/`), restricted to the fields the parser accesses: `id`, the user map
`users` (user id to rank) and the pending-listener table `listeners`
(listener callbacks are opaque, so only their keys are kept; firing one is
the trace event `Event.listenerFired`). -/
structure Room where
  id : String
  users : List (String × String)
  listeners : List String
  deriving DecidableEq, Repr

/-- The mutable global surroundings of the parser: the user registry
(`Users`, with `Users.self` identified by its id) and the `MessageParser`
instance state (`formatsList`, `formatsData`). -/
structure World where
  selfId : String
  users : List Usr
  formatsList : List String
  formatsData : List (String × FormatEntry)
  deriving DecidableEq, Repr

/-- The `room` argument of `Context`/`parseCommand`: a `Room | User` in the
source (a private message uses the sending user as the destination). -/
inductive Dest where
  | room (r : Room)
  | user (u : Usr)
  deriving DecidableEq, Repr

/-- A command handler: called as `(target, room, user, command, time)`
(line 72); an exception it throws is its `Except.error`. -/
abbrev Handler := String → Dest → Usr → String → Int → Except JsError Unit

/-- A command registry entry: a callable handler, or a string alias naming
another key. -/
inductive CmdEntry where
  | handler (h : Handler)
  | aliasTo (target : String)

/-- The command registry `Commands`: a JS object from normalized command id
to entry. -/
abbrev Cmds := List (String × CmdEntry)

/-- JS truthiness of `Commands[command]` (line 57/248): absent keys and the
empty-string alias are falsy. -/
def entryTruthy : Option CmdEntry → Bool
  | none => false
  | some (.aliasTo a) => a ≠ ""
  | some (.handler _) => true

/-- The `allowModeration` configuration value: a boolean, or an object keyed
by room id (line 320 switches on `typeof`). -/
inductive AllowMod where
  | flag (b : Bool)
  | perRoom (m : List (String × Bool))

/-- The configuration object, restricted to the options the parser reads.
`rooms` is `none` when unset (the source also throws when it is set to a
non-array, which an `Option (List String)` cannot represent).  The two hooks
`parseMessage` and `moderate` are optional functions; `moderate` receives
`(message, room id, user id, time)` and returns candidate punishments. -/
structure Config where
  username : String
  commandCharacter : String
  rooms : Option (List String)
  parseMessage : Option (String → String → List String → Bool)
  moderate : Option (String → String → String → Int → List Punishment)
  allowModeration : AllowMod
  punishmentPoints : Option (List (String × Int))
  punishmentActions : Option (List (String × String))
  punishmentReasons : Option (List (String × String))

/-- The ambient JS environment: `Date.now()`, `Date.prototype.toLocaleString`
and the externally implemented `hasRank` method of users.js (an oracle on
(user id, room id, rank)); their internals are outside the modelled core. -/
structure Env where
  now : Int
  toLocaleString : Int → String
  hasRank : String → String → String → Bool

/-- The `Context` object (lines 26-40): one command invocation. -/
structure Context where
  target : String
  room : Dest
  user : Usr
  command : String
  time : Int

/-- The `Context` constructor (lines 34-40): `target ? target.trim() : ''`
and `time || Date.now()` (`none` stands for a JS `undefined` argument). -/
def mkContext (target : Option String) (room : Dest) (user : Usr)
    (command : String) (time : Option Int) (env : Env) : Context :=
  { target :=
      match target with
      | some t => if t ≠ "" then jsTrim t else ""
      | none => ""
    room := room
    user := user
    command := command
    time :=
      match time with
      | some t => if t ≠ 0 then t else env.now
      | none => env.now }

/-! ### Command execution (`Context.run`, lines 54-85) -/

/-- The result of one `run()` call: the returned boolean, or `.error` when an
exception escaped `run` itself, together with the trace of the call. -/
structure RunRes where
  result : Except JsError Bool
  events : List Event
  deriving Repr

/-- The diagnostic assembled in the `catch` block (lines 74-80). -/
def runDiagnostic (env : Env) (ctx : Context) (command target : String)
    (e : JsError) : String :=
  e.stack ++ "Additional information:\n" ++
  "Command = " ++ command ++ "\n" ++
  "Target = " ++ target ++ "\n" ++
  "Time = " ++ env.toLocaleString ctx.time ++ "\n" ++
  "User = " ++ ctx.user.name ++ "\n" ++
  "Room = " ++ (match ctx.room with | .user _ => "in PM" | .room r => r.id)

/-- `Context.run(command, target)` (lines 54-85).  `cmdArg`/`targetArg` are
the two optional JS arguments (`none` is `undefined`).  The `inner` closure
is the tail from line 68 on: the `typeof` check, the guarded handler call
(lines 70-84) and the final `return true`.  On the explicit-command path, a
present truthy registry entry leads to `target.trim()` (line 62), which
throws a `TypeError` past the not-yet-entered `try` when `targetArg` is
`undefined`. -/
def Context.run (ctx : Context) (env : Env) (cmds : Cmds)
    (cmdArg targetArg : Option String) : RunRes :=
  let inner : String → String → RunRes := fun command target =>
    match lookupAssoc cmds command with
    | some (.handler h) =>
      match h target ctx.room ctx.user ctx.command ctx.time with
      | .ok _ => ⟨.ok true, [.handlerCalled command target]⟩
      | .error e =>
        ⟨.ok false, [.handlerCalled command target,
                     .consoleLog (runDiagnostic env ctx command target e)]⟩
    | _ => ⟨.ok false, []⟩
  match cmdArg with
  | some c0 =>
    if c0 ≠ "" then
      let c := toId c0
      if !(entryTruthy (lookupAssoc cmds c)) then ⟨.ok false, []⟩
      else
        let c2 :=
          match lookupAssoc cmds c with
          | some (.aliasTo a) => a
          | _ => c
        match targetArg with
        | some t => inner c2 (jsTrim t)
        | none => ⟨.error .typeError, []⟩
    else inner ctx.command ctx.target
  | none => inner ctx.command ctx.target

/-- `MessageParser.parseCommand` (lines 233-256): trim, require the
configured command character, split at the first space, normalize, resolve
one alias level, and run a fresh `Context`.  Only the trace is returned (the
caller ignores the value). -/
def parseCommand (cfg : Config) (env : Env) (cmds : Cmds) (message0 : String)
    (dest : Dest) (user : Usr) (time : Option Int) : List Event :=
  let message := jsTrim message0
  if charAt message 0 ≠ cfg.commandCharacter then [] else
  let message2 := message.drop 1
  let split : String × String :=
    match indexOfChar message2 ' ' with
    | some i => (message2.take i, message2.drop (i + 1))
    | none => (message2, "")
  let command := toId split.1
  if !(entryTruthy (lookupAssoc cmds command)) then [] else
  let command2 :=
    match lookupAssoc cmds command with
    | some (.aliasTo a) => a
    | _ => command
  match lookupAssoc cmds command2 with
  | some (.handler _) =>
    (Context.run (mkContext (some split.2) dest user command2 time env)
      env cmds none none).events
  | _ => []

/-! ### Moderation engine (`MessageParser.moderate`, lines 318-387) -/

/-- The source constants (lines 20-24). -/
def FLOOD_MINIMUM_MESSAGES : Nat := 5

/-- Milliseconds spanned by the flood window (line 21). -/
def FLOOD_MAXIMUM_TIME : Int := 5 * 1000

/-- Minimum length of a repeated run for the stretching rule (line 22). -/
def STRETCHING_MINIMUM : Nat := 20

/-- Minimum number of capital letters for the caps rule (line 23). -/
def CAPS_MINIMUM : Nat := 30

/-- Milliseconds of punishment cooldown (line 24). -/
def PUNISHMENT_COOLDOWN : Int := 5 * 1000

/-- Line 327: `message.trim().replace(whitespaceRegex, '')
.replace(nullCharactersRegex, '')`. -/
def normalizeMessage (s : String) : String :=
  String.mk (((jsTrim s).data.filter (fun c => !(isJsSpace c))).filter
    (fun c => !(isNullChar c)))

/-- A character matched by `.` in a JS regex without the dot-all flag
(anything but a line terminator). -/
def jsDotMatches (c : Char) : Bool :=
  !(c = '\n' ∨ c = '\r' ∨ c = '\u2028' ∨ c = '\u2029')

/-- Greedy count of further copies of `p` at the head of `s` (the `+` of the
backreference `\1+` after its first copy), with enough fuel. -/
def copiesAtFuel : Nat → List Char → List Char → Nat
  | 0, _, _ => 0
  | fuel + 1, p, s =>
    if p ≠ [] ∧ p.isPrefixOf s then 1 + copiesAtFuel fuel p (s.drop p.length)
    else 0

/-- Greedy count of copies of `p` at the head of `s`. -/
def copiesAt (p s : List Char) : Nat :=
  copiesAtFuel (s.length + 1) p s

/-- First match of the source's `stretchRegex` `(.+)\1+` anchored at the head
of `s`: the greedy group tries the longest capture first (a capture longer
than half the remainder can never be followed by a full second copy), and on
success `\1+` greedily takes every further copy.  Returns the total matched
length. -/
def stretchMatchAt (s : List Char) : Option Nat :=
  (List.range (s.length / 2)).reverse.findSome? (fun k =>
    let len := k + 1
    let p := s.take len
    if p.all jsDotMatches ∧ p = (s.drop len).take len then
      some (len * (1 + copiesAt p (s.drop len)))
    else none)

/-- The global scan of `message.match(stretchRegex)`: successive
non-overlapping matches, the scan resuming after each match and advancing by
one character where no match starts. -/
def stretchScan : Nat → List Char → List String
  | 0, _ => []
  | _ + 1, [] => []
  | fuel + 1, c :: rest =>
    match stretchMatchAt (c :: rest) with
    | some len =>
      String.mk ((c :: rest).take len) :: stretchScan fuel ((c :: rest).drop len)
    | none => stretchScan fuel rest

/-- All matches of `stretchRegex` in `s` (the JS `null` result is the empty
list). -/
def stretchMatches (s : String) : List String :=
  stretchScan (s.length + 1) s.data

/-- The flood test of line 349, on the history after the current message was
unshifted: at least `FLOOD_MINIMUM_MESSAGES` entries, and the 5th most recent
(index 4) within `FLOOD_MAXIMUM_TIME` of `time`. -/
def floodCond (messages : List Msg) (time : Int) : Prop :=
  FLOOD_MINIMUM_MESSAGES ≤ messages.length ∧
  time - (messages.getD (FLOOD_MINIMUM_MESSAGES - 1) ⟨"", 0⟩).time ≤ FLOOD_MAXIMUM_TIME

instance (messages : List Msg) (time : Int) : Decidable (floodCond messages time) := by
  unfold floodCond; infer_instance

/-- The stretching test of lines 354-359: some match of the repeat pattern,
and the longest one (the head after the stable sort by descending length) at
least `STRETCHING_MINIMUM` long. -/
def stretchCond (message : String) : Prop :=
  stretchMatches message ≠ [] ∧
  STRETCHING_MINIMUM ≤
    ((sortByDesc (fun m => (m.length : Int)) (stretchMatches message)).headD "").length

instance (message : String) : Decidable (stretchCond message) := by
  unfold stretchCond; infer_instance

/-- The caps test of lines 363-364: `[A-Z]` matches exist and number at least
`CAPS_MINIMUM`. -/
def capsCond (message : String) : Prop :=
  message.data.filter (fun c => 'A' ≤ c ∧ c ≤ 'Z') ≠ [] ∧
  CAPS_MINIMUM ≤ (message.data.filter (fun c => 'A' ≤ c ∧ c ≤ 'Z')).length

instance (message : String) : Decidable (capsCond message) := by
  unfold capsCond; infer_instance

/-- Line 320-324: is moderation allowed in this room by configuration? -/
def allowModerationOk : AllowMod → String → Bool
  | .perRoom m, roomId => (lookupAssoc m roomId).getD false
  | .flag b, _ => b

/-- Configured point value of an action (`Config.punishmentPoints[action]`).
The configurations considered supply a point value for every action that can
reach this lookup (in JS a missing key would yield `NaN` float arithmetic,
which is outside this integral model). -/
def ptsOf (pp : List (String × Int)) (action : String) : Int :=
  (lookupAssoc pp action).getD 0

/-- Result of one `moderate` call: the (possibly created/updated) record for
the (user, room) pair, and the trace of `room.say` calls. -/
structure ModOut where
  data : Option ModData
  events : List Event
  deriving Repr

/-- `MessageParser.moderate(message, room, user, time)` (lines 318-387),
operating on `data0`, the record `user.roomData.get(room)` (`none` when
absent).  Every branch mirrors the source: the three configuration gates,
normalization, record fetch-or-create, unshift of the current message, the
cooldown short-circuit, the four rule evaluations in source order, the stable
severity sort, escalation, and the verbal-warning / room-command split (only
the latter updates `lastAction`). -/
def moderate (cfg : Config) (env : Env) (selfId : String) (room : Room)
    (userId userName : String) (message0 : String) (time : Int)
    (data0 : Option ModData) : ModOut :=
  if !(env.hasRank selfId room.id "%") then ⟨data0, []⟩ else
  if !(allowModerationOk cfg.allowModeration room.id) then ⟨data0, []⟩ else
  match cfg.punishmentPoints, cfg.punishmentActions with
  | some pp, some pa =>
    let message := normalizeMessage message0
    let data1 := data0.getD ⟨[], 0, 0⟩
    let data := { data1 with messages := ⟨message, time⟩ :: data1.messages }
    if data.lastAction ≠ 0 ∧ time - data.lastAction < PUNISHMENT_COOLDOWN then
      ⟨some data, []⟩
    else
      let punishments : List Punishment :=
        (match cfg.moderate with
         | some f => f message room.id userId time
         | none => []) ++
        (if floodCond data.messages time then
           [⟨"mute", "flooding", "please do not flood the chat"⟩] else []) ++
        (if stretchCond message then
           [⟨"verbalwarn", "stretching", "please do not stretch"⟩] else []) ++
        (if capsCond message then
           [⟨"verbalwarn", "caps", "please do not abuse caps"⟩] else [])
      if punishments = [] then ⟨some data, []⟩ else
      let punishment := (sortByDesc (fun p => ptsOf pp p.action) punishments).headD ⟨"", "", ""⟩
      let points := ptsOf pp punishment.action
      let reason :=
        match cfg.punishmentReasons with
        | some pr =>
          match lookupAssoc pr punishment.rule with
          | some r => if r ≠ "" then r else punishment.reason
          | none => punishment.reason
        | none => punishment.reason
      let escalated : ModData × String :=
        if data.points ≥ points then
          let pts2 := data.points + 1
          ({ data with points := pts2 },
           match lookupAssoc pa (toString pts2) with
           | some a => if a ≠ "" then a else punishment.action
           | none => punishment.action)
        else ({ data with points := points }, punishment.action)
      if escalated.2 = "verbalwarn" then
        ⟨some escalated.1, [.said room.id (userName ++ ", " ++ reason)]⟩
      else
        let action :=
          if escalated.2 = "roomban" ∧ !(env.hasRank selfId room.id "@") then
            "hourmute"
          else escalated.2
        ⟨some { escalated.1 with lastAction := time },
         [.said room.id ("/" ++ action ++ " " ++ userName ++ ", " ++ reason)]⟩
  | _, _ => ⟨data0, []⟩

/-! ### Format catalog (`MessageParser.parseFormats`, lines 258-310) -/

/-- Loop state of the single pass of `parseFormats`: the `isSection` flag,
the current section name, and the catalog built so far. -/
structure FormatsAcc where
  isSection : Bool
  sect : String
  data : List (String × FormatEntry)
  deriving DecidableEq, Repr

/-- Store one parsed descriptor (lines 296-305): normalize the cleaned name,
drop entries with an empty id. -/
def addFormatEntry (acc : FormatsAcc) (name : String)
    (searchShow challengeShow tournamentShow : Bool) : FormatsAcc :=
  let id := toId name
  if id = "" then acc
  else
    let entry : FormatEntry :=
      { name := name, id := id, sect := acc.sect, searchShow := searchShow,
        challengeShow := challengeShow, tournamentShow := tournamentShow }
    { acc with data := setAssoc acc.data id entry }

/-- One iteration of the `parseFormats` loop (lines 264-306): consume a
section name, skip `,LL`, recognize a section-header marker (an empty string
or a comma followed by a parsable decimal), otherwise parse a descriptor —
a trailing `,<hex>` suffix is a visibility bitmask (bits 2/4/8), else the
legacy `,#` / `,,` / `,` suffixes are stripped with their flag meanings. -/
def parseFormatsStep (acc : FormatsAcc) (item : String) : FormatsAcc :=
  if acc.isSection then { acc with sect := item, isSection := false }
  else if item = ",LL" then acc
  else if item = "" ∨ (charAt item 0 = "," ∧ (parseIntJs (item.drop 1) 10).isSome) then
    { acc with isSection := true }
  else
    let name := item
    let lastComma := lastIndexOfChar name ','
    let code : Option Int :=
      match lastComma with
      | some i => parseIntJs (name.drop (i + 1)) 16
      | none => none
    match code with
    | some c =>
      addFormatEntry acc (name.take (lastComma.getD 0))
        (jsAnd c 2 ≠ 0) (jsAnd c 4 ≠ 0) (jsAnd c 8 ≠ 0)
    | none =>
      let name2 :=
        if name.drop (name.length - 2) = ",#" then name.take (name.length - 2)
        else name
      if name2.drop (name2.length - 2) = ",," then
        addFormatEntry acc (name2.take (name2.length - 2)) true false true
      else if name2.drop (name2.length - 1) = "," then
        addFormatEntry acc (name2.take (name2.length - 1)) false true true
      else addFormatEntry acc name2 true true true

/-- `MessageParser.parseFormats()` (lines 258-310) applied to the instance
state: an empty `formatsList` returns untouched (before the cache clear);
otherwise the catalog is rebuilt from scratch and
`Tools.FormatCache.clear()` is the final trace event. -/
def parseFormats (formatsList : List String)
    (old : List (String × FormatEntry)) : List (String × FormatEntry) × List Event :=
  if formatsList = [] then (old, [])
  else ((formatsList.foldl parseFormatsStep ⟨false, "", []⟩).data,
        [Event.formatCacheCleared])

/-! ### User registry operations (users.js / rooms.js, modelled from the spec) -/

/-- Find a registered user by id. -/
def findUser (w : World) (id : String) : Option Usr :=
  w.users.find? (fun u => u.id = id)

/-- Modelled from the spec: `Users.get(name)` of users.js (not under `src/`)
— a plain registry lookup under the normalized identifier, with no creation
("resolves the speaker"; the registry exposes `add/get/destroy`). -/
def usersGet (w : World) (name : String) : Option Usr :=
  findUser w (toId name)

/-- Modelled from the spec: `Users.add(name)` of users.js (not under `src/`)
— normalize the name; fail (JS `null`) exactly when the identifier is empty
("no user created when the identifier cannot be normalized"); otherwise
return the existing user or register a fresh one. -/
def usersAdd (w : World) (name : String) : Option (Usr × World) :=
  let id := toId name
  if id = "" then none
  else
    match findUser w id with
    | some u => some (u, w)
    | none =>
      let u : Usr := ⟨id, name, [], []⟩
      some (u, { w with users := w.users ++ [u] })

/-- Replace the stored record of one user (id-preserving update of the
registry, standing for a JS mutation of the shared `User` object). -/
def updateUserIn (w : World) (id : String) (f : Usr → Usr) : World :=
  { w with users := w.users.map (fun u => if u.id = id then f u else u) }

/-- `user.rooms.set(room, rank)` seen through the registry. -/
def setUserRoomRank (w : World) (id roomId rank : String) : World :=
  updateUserIn w id (fun u => { u with rooms := setAssoc u.rooms roomId rank })

/-- The rank a user's own membership map stores for a room. -/
def userRank (w : World) (id roomId : String) : Option String :=
  (findUser w id).bind (fun u => lookupAssoc u.rooms roomId)

/-- The stored moderation record of a user for a room. -/
def userModData (w : World) (id roomId : String) : Option ModData :=
  (findUser w id).bind (fun u => lookupAssoc u.roomData roomId)

/-- Store a moderation record back (`user.roomData.set(room, data)` plus the
in-place mutations `moderate` performs on the shared record). -/
def storeModData (w : World) (id roomId : String) : Option ModData → World
  | some d => updateUserIn w id (fun u => { u with roomData := setAssoc u.roomData roomId d })
  | none => w

/-- Modelled from the spec: `room.onJoin(user, rank)` of rooms.js (not under
`src/`) — membership "set on both sides": the room's user map and the user's
room map receive the rank. -/
def onJoin (w : World) (room : Room) (u : Usr) (rank : String) : World × Room :=
  (setUserRoomRank w u.id room.id rank,
   { room with users := setAssoc room.users u.id rank })

/-- Modelled from the spec: `room.onLeave(user)` of rooms.js — membership
removed on both sides. -/
def onLeave (w : World) (room : Room) (u : Usr) : World × Room :=
  (updateUserIn w u.id (fun v => { v with rooms := removeAssoc v.rooms room.id }),
   { room with users := removeAssoc room.users u.id })

/-- Modelled from the spec: `room.onRename(user, newName)` of rooms.js — the
first character of the new name field is the rank, set on both sides; the
visible name is the remainder. -/
def onRename (w : World) (room : Room) (u : Usr) (newName : String) : World × Room :=
  let rank := charAt newName 0
  (updateUserIn (setUserRoomRank w u.id room.id rank) u.id
     (fun v => { v with name := newName.drop 1 }),
   { room with users := setAssoc room.users u.id rank })

/-! ### Protocol decoder (`MessageParser.parse`, lines 101-225) -/

/-- Result of handling one line: updated registry, updated room, trace. -/
structure ParseOut where
  world : World
  room : Room
  events : List Event
  deriving Repr

/-- The `updateuser` case (lines 114-128): a username mismatch is ignored;
a failure flag other than `"1"` logs and terminates the process (nothing
after `process.exit()` runs); success logs and sends one `/join` per
configured room in configured order. -/
def parseUpdateuser (cfg : Config) (w : World) (room : Room)
    (fields : List String) : ParseOut :=
  if fields.getD 0 "" ≠ cfg.username then ⟨w, room, []⟩
  else if fields.getD 1 "" ≠ "1" then
    ⟨w, room, [.consoleLog "Failed to log in", .processExit]⟩
  else
    ⟨w, room,
     .consoleLog "Successfully logged in" ::
       (match cfg.rooms with
        | none => []
        | some rs => rs.map (fun r => Event.clientSend ("|/join " ++ r)))⟩

/-- One iteration of the `users` snapshot loop (lines 143-148): add the
entry's name part (everything after the rank character) to the registry and
set the rank on both sides.  A name that cannot be normalized makes
`Users.add` return `null` and the subsequent `user.rooms.set` throw. -/
def usersSnapshotStep (acc : Except JsError (World × Room)) (entry : String) :
    Except JsError (World × Room) :=
  match acc with
  | .error e => .error e
  | .ok (w, room) =>
    match usersAdd w (entry.drop 1) with
    | none => .error .typeError
    | some (u, w2) =>
      let rank := charAt entry 0
      .ok (setUserRoomRank w2 u.id room.id rank,
           { room with users := setAssoc room.users u.id rank })

/-- The `users` case (lines 140-150): a snapshot of exactly `"0"` is
skipped; otherwise every comma-separated entry after the leading count is
processed by `usersSnapshotStep`. -/
def parseUsers (w : World) (room : Room) (fields : List String) :
    Except JsError ParseOut :=
  if fields.getD 0 "" = "0" then .ok ⟨w, room, []⟩
  else
    let users := splitOnChar (fields.getD 0 "") ','
    match (users.drop 1).foldl usersSnapshotStep (.ok (w, room)) with
    | .ok (w2, room2) => .ok ⟨w2, room2, []⟩
    | .error e => .error e

/-- The shared tail of the two chat cases (lines 177-191 and 193-207) once
the speaker string, the message body and the timestamp are known: refresh
the cached rank (user side only), divert self-chat to the pending-listener
table, otherwise run `parseCommand` and — below `+` rank — `moderate`. -/
def parseChatWith (cfg : Config) (env : Env) (cmds : Cmds) (w : World)
    (room : Room) (speaker : String) (message : String) (time : Int) : ParseOut :=
  match usersGet w speaker with
  | none => ⟨w, room, []⟩
  | some u =>
    let rank := charAt speaker 0
    let w2 :=
      if lookupAssoc u.rooms room.id ≠ some rank then
        setUserRoomRank w u.id room.id rank
      else w
    if u.id = w2.selfId then
      let m := toId message
      if m ∈ room.listeners then ⟨w2, room, [.listenerFired m]⟩
      else ⟨w2, room, []⟩
    else
      let evCmd := Event.parseCommandEntered ::
        parseCommand cfg env cmds message (.room room) u (some time)
      if !(env.hasRank u.id room.id "+") then
        let out := moderate cfg env w2.selfId room u.id u.name message time
          (userModData w2 u.id room.id)
        ⟨storeModData w2 u.id room.id out.data, room,
         evCmd ++ Event.moderateEntered :: out.events⟩
      else ⟨w2, room, evCmd⟩

/-- The `c` case (lines 177-191): speaker in `fields[0]`, body the rejoined
remainder, decode-time timestamp. -/
def parseChat (cfg : Config) (env : Env) (cmds : Cmds) (w : World)
    (room : Room) (fields : List String) : ParseOut :=
  parseChatWith cfg env cmds w room (fields.getD 0 "")
    (String.intercalate "|" (fields.drop 1)) env.now

/-- The `c:` case (lines 193-207): unix-seconds timestamp in `fields[0]`
(scaled to milliseconds), speaker in `fields[1]`, body the rejoined
remainder. -/
def parseChatTs (cfg : Config) (env : Env) (cmds : Cmds) (w : World)
    (room : Room) (fields : List String) : ParseOut :=
  parseChatWith cfg env cmds w room (fields.getD 1 "")
    (String.intercalate "|" (fields.drop 2))
    ((parseIntJs (fields.getD 0 "") 10).getD 0 * 1000)

/-- The `pm` case (lines 209-215): the sender is added, self-sent PMs are
dropped, otherwise the rejoined remainder goes to `parseCommand` with the
sender as both destination and speaker and no explicit time. -/
def parsePm (cfg : Config) (env : Env) (cmds : Cmds) (w : World)
    (room : Room) (fields : List String) : ParseOut :=
  match usersAdd w (fields.getD 0 "") with
  | none => ⟨w, room, []⟩
  | some (u, w2) =>
    if u.id = w2.selfId then ⟨w2, room, []⟩
    else
      ⟨w2, room,
       Event.parseCommandEntered ::
         parseCommand cfg env cmds (String.intercalate "|" (fields.drop 2))
           (.user u) u none⟩

/-- The `J`/`j` case (lines 156-162): add the user (abort silently when the
name has no normalizable identifier), then join with the field's leading rank
character. -/
def parseJoinLike (w : World) (room : Room) (fields : List String) : ParseOut :=
  match usersAdd w (fields.getD 0 "") with
  | none => ⟨w, room, []⟩
  | some (u, w2) =>
    let wr := onJoin w2 room u (charAt (fields.getD 0 "") 0)
    ⟨wr.1, wr.2, []⟩

/-- The `L`/`l` case (lines 163-169): add the user (abort silently on a
non-normalizable name), then leave. -/
def parseLeaveLike (w : World) (room : Room) (fields : List String) : ParseOut :=
  match usersAdd w (fields.getD 0 "") with
  | none => ⟨w, room, []⟩
  | some (u, w2) =>
    let wr := onLeave w2 room u
    ⟨wr.1, wr.2, []⟩

/-- The `N`/`n` case (lines 170-176): add the user under the old identifier
in `fields[1]` (abort silently on a non-normalizable name), then rename to
`fields[0]`. -/
def parseRenameLike (w : World) (room : Room) (fields : List String) : ParseOut :=
  match usersAdd w (fields.getD 1 "") with
  | none => ⟨w, room, []⟩
  | some (u, w2) =>
    let wr := onRename w2 room u (fields.getD 0 "")
    ⟨wr.1, wr.2, []⟩

/-- The `raw` case (lines 216-223): the two restart banners toggle the
lockdown flag. -/
def parseRaw (fields : List String) : List Event :=
  let message := String.intercalate "|" fields
  if containsStr message "<div class=\"broadcast-red\">" &&
     containsStr message "The server is restarting soon." then
    [.lockdownSet true]
  else if containsStr message "<div class=\"broadcast-green\">" &&
          containsStr message "The server restart was canceled." then
    [.lockdownSet false]
  else []

/-- Dispatch on the message type tag (the `switch` of lines 108-224), after
the optional `Config.parseMessage` veto hook (lines 105-107).  `fields` is
`splitMessage` after the type tag was shifted off. -/
def parseFields (cfg : Config) (env : Env) (cmds : Cmds) (w : World)
    (room : Room) (msgType : String) (fields : List String) :
    Except JsError ParseOut :=
  let vetoed : Bool :=
    match cfg.parseMessage with
    | some f => !(f room.id msgType fields)
    | none => false
  if vetoed then .ok ⟨w, room, []⟩ else
  match msgType with
  | "challstr" =>
    .ok ⟨w, room, [.setChallenge (fields.getD 0 "") (fields.getD 1 ""), .loginCalled]⟩
  | "updateuser" => .ok (parseUpdateuser cfg w room fields)
  | "init" =>
    match findUser w w.selfId with
    | some selfU =>
      let wr := onJoin w room selfU " "
      .ok ⟨wr.1, wr.2, [.consoleLog ("Joined room: " ++ room.id)]⟩
    | none => .ok ⟨w, room, [.consoleLog ("Joined room: " ++ room.id)]⟩
  | "noinit" =>
    .ok ⟨w, room, [.consoleLog ("Could not join room: " ++ room.id), .destroyRoom room.id]⟩
  | "deinit" => .ok ⟨w, room, [.destroyRoom room.id]⟩
  | "users" => parseUsers w room fields
  | "formats" =>
    let parsed := parseFormats fields w.formatsData
    .ok ⟨{ w with formatsList := fields, formatsData := parsed.1 }, room, parsed.2⟩
  | "J" => .ok (parseJoinLike w room fields)
  | "j" => .ok (parseJoinLike w room fields)
  | "L" => .ok (parseLeaveLike w room fields)
  | "l" => .ok (parseLeaveLike w room fields)
  | "N" => .ok (parseRenameLike w room fields)
  | "n" => .ok (parseRenameLike w room fields)
  | "c" => .ok (parseChat cfg env cmds w room fields)
  | "c:" => .ok (parseChatTs cfg env cmds w room fields)
  | "pm" => .ok (parsePm cfg env cmds w room fields)
  | "raw" => .ok ⟨w, room, parseRaw fields⟩
  | _ => .ok ⟨w, room, []⟩

/-- `MessageParser.parse(message, room)` (lines 101-225): split on `|`,
discard the leading empty segment, shift off the type tag, dispatch. -/
def parse (cfg : Config) (env : Env) (cmds : Cmds) (w : World) (room : Room)
    (message : String) : Except JsError ParseOut :=
  let splitMessage := (splitOnChar message '|').drop 1
  parseFields cfg env cmds w room (splitMessage.getD 0 "") (splitMessage.drop 1)

/-! ### Spec-side definitions and concrete fixtures -/

/-- The flood trigger in the words of the spec ("the 5 most recent messages
(including this one) all fall within a 5-second window"), written for
refinement comparison with `floodCond`, the condition the code tests. -/
def floodSpecWindow (messages : List Msg) (time : Int) : Prop :=
  FLOOD_MINIMUM_MESSAGES ≤ messages.length ∧
  ∀ m ∈ messages.take FLOOD_MINIMUM_MESSAGES, time - m.time ≤ FLOOD_MAXIMUM_TIME

/-- Run `moderate` over a sequence of (message, time) pairs against one
record, collecting each call's trace (a test driver for scenarios). -/
def moderateSeq (cfg : Config) (env : Env) (selfId : String) (room : Room)
    (userId userName : String) :
    List (String × Int) → Option ModData → Option ModData × List (List Event)
  | [], d => (d, [])
  | (m, t) :: rest, d =>
    let out := moderate cfg env selfId room userId userName m t d
    let r := moderateSeq cfg env selfId room userId userName rest out.data
    (r.1, out.events :: r.2)

/-- A benign handler for fixtures. -/
def okHandler : Handler := fun _ _ _ _ _ => .ok ()

/-- A handler that always throws, for fixtures. -/
def boomHandler : Handler := fun _ _ _ _ _ => .error (.raised "Boom!\n")

/-- Fixture registry: a direct handler, an alias to it, an alias to an alias,
and a throwing handler. -/
def exCmds : Cmds :=
  [("real", .handler okHandler), ("go", .aliasTo "real"),
   ("bad", .aliasTo "go"), ("boom", .handler boomHandler)]

/-- Fixture configuration (no hooks, moderation allowed everywhere, the
standard escalation tables). -/
def exCfg : Config where
  username := "Phantom"
  commandCharacter := "!"
  rooms := some ["lobby", "games"]
  parseMessage := none
  moderate := none
  allowModeration := .flag true
  punishmentPoints := some [("verbalwarn", 1), ("mute", 2), ("hourmute", 3), ("roomban", 4)]
  punishmentActions := some [("3", "hourmute"), ("4", "roomban")]
  punishmentReasons := none

/-- Fixture environment: the local account "phantom" holds staff rank
everywhere, nobody else holds any rank. -/
def exEnv : Env where
  now := 777
  toLocaleString := fun t => "LT" ++ toString t
  hasRank := fun uid _ _ => uid = "phantom"

/-- Fixture room with one pending listener key. -/
def exRoom : Room := { id := "lobby", users := [("bob", " ")], listeners := ["done"] }

/-- Fixture local account. -/
def exSelf : Usr := { id := "phantom", name := "Phantom", rooms := [], roomData := [] }

/-- Fixture ordinary user. -/
def exBob : Usr := { id := "bob", name := "Bob", rooms := [("lobby", " ")], roomData := [] }

/-- Fixture registry state containing both users. -/
def exWorld : World :=
  { selfId := "phantom", users := [exSelf, exBob], formatsList := [], formatsData := [] }

/-- Fixture registry state in which Bob is not registered. -/
def exWorldNoBob : World :=
  { selfId := "phantom", users := [exSelf], formatsList := [], formatsData := [] }

/-- Fixture context whose command resolves to the throwing handler. -/
def exCtxBoom : Context :=
  { target := "tgt", room := .room exRoom, user := exBob, command := "boom", time := 123 }

/-- Fixture context whose command resolves to the benign handler. -/
def exCtxReal : Context :=
  { target := "tgt", room := .user exBob, user := exBob, command := "real", time := 123 }

/-- The six-message flood scenario of the spec: five messages inside one
5-second span, then a sixth 10 seconds after the punished one. -/
def exFloodSeq : List (String × Int) :=
  [("a", 1000), ("b", 2000), ("c", 3000), ("d", 4000), ("e", 5000), ("f", 15000)]

/-! ### Theorems -/

/-- Claim C8: `parseFormats` applied to `["", "SectionA", "Abc,8", "Def"]`
produces a catalog with exactly two entries, both in section `"SectionA"`;
the entry derived from `"Abc,8"` has `searchShow = false`,
`challengeShow = false`, `tournamentShow = true`, and the entry derived from
`"Def"` has all three visibility flags true. -/
theorem c8_parseFormats_catalog :
    (parseFormats ["", "SectionA", "Abc,8", "Def"] []).1 =
      [("abc", { name := "Abc", id := "abc", sect := "SectionA",
                 searchShow := false, challengeShow := false, tournamentShow := true }),
       ("def", { name := "Def", id := "def", sect := "SectionA",
                 searchShow := true, challengeShow := true, tournamentShow := true })] := by
  rfl

/-- Claim C2: for every resolved command handler, `Context.run()` returns
true when the handler returns normally and false when it raises; the
exception is caught inside `run` (the result is a returned boolean, never an
escaping error), and on the failure path the diagnostic of lines 74-81 —
stack, command, target, formatted time, user name, and room id or the
`"in PM"` marker — is logged. -/
theorem c2_run_containment (ctx : Context) (env : Env) (cmds : Cmds) (h : Handler)
    (hh : lookupAssoc cmds ctx.command = some (.handler h)) :
    (h ctx.target ctx.room ctx.user ctx.command ctx.time = .ok () →
      Context.run ctx env cmds none none =
        ⟨.ok true, [.handlerCalled ctx.command ctx.target]⟩) ∧
    (∀ e, h ctx.target ctx.room ctx.user ctx.command ctx.time = .error e →
      Context.run ctx env cmds none none =
        ⟨.ok false, [.handlerCalled ctx.command ctx.target,
          .consoleLog (runDiagnostic env ctx ctx.command ctx.target e)]⟩) ∧
    (∀ e, (Context.run ctx env cmds none none).result ≠ .error e) := by
  refine ⟨fun hok => ?_, fun e herr => ?_, fun e => ?_⟩
  · simp only [Context.run, hh, hok]
  · simp only [Context.run, hh, herr]
  · simp only [Context.run, hh]
    rcases hres : h ctx.target ctx.room ctx.user ctx.command ctx.time with u | e2 <;> simp

/-- Witness for C2 at a concrete failing handler. -/
theorem c2_run_containment_witness :
    Context.run exCtxBoom exEnv exCmds none none =
      ⟨.ok false, [.handlerCalled "boom" "tgt",
        .consoleLog (runDiagnostic exEnv exCtxBoom "boom" "tgt" (.raised "Boom!\n"))]⟩ :=
  (c2_run_containment exCtxBoom exEnv exCmds boomHandler rfl).2.1 (.raised "Boom!\n") rfl

/-- Claim C5: command resolution honors exactly one level of alias
indirection in `Context.run(command, target)`: when the normalized command
names an alias whose target entry is a callable handler, resolution succeeds
and that handler is executed; when the alias points to another alias,
resolution fails with no invocation and no error surfaced (`false` with an
empty trace). -/
theorem c5_alias_one_level (ctx : Context) (env : Env) (cmds : Cmds)
    (cmd t a : String) (hne : cmd ≠ "")
    (halias : lookupAssoc cmds (toId cmd) = some (.aliasTo a)) (ha : a ≠ "") :
    (∀ h2 : Handler, lookupAssoc cmds a = some (.handler h2) →
      Context.run ctx env cmds (some cmd) (some t) =
        (match h2 (jsTrim t) ctx.room ctx.user ctx.command ctx.time with
         | .ok _ => ⟨.ok true, [.handlerCalled a (jsTrim t)]⟩
         | .error e => ⟨.ok false, [.handlerCalled a (jsTrim t),
             .consoleLog (runDiagnostic env ctx a (jsTrim t) e)]⟩)) ∧
    (∀ b, lookupAssoc cmds a = some (.aliasTo b) →
      Context.run ctx env cmds (some cmd) (some t) = ⟨.ok false, []⟩) := by
  constructor
  · intro h2 hh
    simp only [Context.run, hne, halias, hh, entryTruthy, ha]
    rcases hres : h2 (jsTrim t) ctx.room ctx.user ctx.command ctx.time with u | e <;>
      simp [hne, ha, hres]
  · intro b hb
    simp only [Context.run, hne, halias, hb, entryTruthy, ha]
    simp [hne, ha]

/-- Witness for C5: `go` (alias to the handler `real`) runs the handler;
`bad` (alias to the alias `go`) resolves to nothing and reports failure. -/
theorem c5_alias_one_level_witness :
    Context.run exCtxReal exEnv exCmds (some "go") (some "x") =
      ⟨.ok true, [.handlerCalled "real" "x"]⟩ ∧
    Context.run exCtxReal exEnv exCmds (some "bad") (some "x") =
      ⟨.ok false, []⟩ := by
  constructor
  · exact (c5_alias_one_level exCtxReal exEnv exCmds "go" "x" "real"
      (by decide) rfl (by decide)).1 okHandler rfl
  · exact (c5_alias_one_level exCtxReal exEnv exCmds "bad" "x" "go"
      (by decide) rfl (by decide)).2 "real" rfl

/-- Claim C10: when `Context.run(command, target)` is called with a command
that normalizes to a present (truthy) registry key but with `target`
omitted, `target.trim()` at line 62 throws a `TypeError` before the `try`
block of line 70 is entered, so the exception escapes `run` and no handler
is invoked: the containment boundary covers only the handler call. -/
theorem c10_undefined_target_escapes (ctx : Context) (env : Env) (cmds : Cmds)
    (cmd : String) (hne : cmd ≠ "")
    (htruthy : entryTruthy (lookupAssoc cmds (toId cmd)) = true) :
    Context.run ctx env cmds (some cmd) none = ⟨.error .typeError, []⟩ := by
  simp only [Context.run, hne, htruthy]
  simp [hne]

/-- Witness for C10 at the fixture registry. -/
theorem c10_undefined_target_escapes_witness :
    Context.run exCtxReal exEnv exCmds (some "go") none = ⟨.error .typeError, []⟩ :=
  c10_undefined_target_escapes exCtxReal exEnv exCmds "go" (by decide) (by decide)

/-- Dispatch of an `updateuser` line (no veto hook configured). -/
theorem parseFields_updateuser (cfg : Config) (env : Env) (cmds : Cmds)
    (w : World) (room : Room) (fields : List String)
    (hhook : cfg.parseMessage = none) :
    parseFields cfg env cmds w room "updateuser" fields =
      .ok (parseUpdateuser cfg w room fields) := by
  simp [parseFields, hhook]

/-- Dispatch of a `c` line (no veto hook configured). -/
theorem parseFields_c (cfg : Config) (env : Env) (cmds : Cmds)
    (w : World) (room : Room) (fields : List String)
    (hhook : cfg.parseMessage = none) :
    parseFields cfg env cmds w room "c" fields =
      .ok (parseChat cfg env cmds w room fields) := by
  simp [parseFields, hhook]

/-- Dispatch of a `c:` line (no veto hook configured). -/
theorem parseFields_cts (cfg : Config) (env : Env) (cmds : Cmds)
    (w : World) (room : Room) (fields : List String)
    (hhook : cfg.parseMessage = none) :
    parseFields cfg env cmds w room "c:" fields =
      .ok (parseChatTs cfg env cmds w room fields) := by
  simp [parseFields, hhook]

/-- Dispatch of a `J` line (no veto hook configured). -/
theorem parseFields_J (cfg : Config) (env : Env) (cmds : Cmds)
    (w : World) (room : Room) (fields : List String)
    (hhook : cfg.parseMessage = none) :
    parseFields cfg env cmds w room "J" fields = .ok (parseJoinLike w room fields) := by
  simp [parseFields, hhook]

/-- Dispatch of an `L` line (no veto hook configured). -/
theorem parseFields_L (cfg : Config) (env : Env) (cmds : Cmds)
    (w : World) (room : Room) (fields : List String)
    (hhook : cfg.parseMessage = none) :
    parseFields cfg env cmds w room "L" fields = .ok (parseLeaveLike w room fields) := by
  simp [parseFields, hhook]

/-- Dispatch of an `N` line (no veto hook configured). -/
theorem parseFields_N (cfg : Config) (env : Env) (cmds : Cmds)
    (w : World) (room : Room) (fields : List String)
    (hhook : cfg.parseMessage = none) :
    parseFields cfg env cmds w room "N" fields = .ok (parseRenameLike w room fields) := by
  simp [parseFields, hhook]

/-- Dispatch of a `pm` line (no veto hook configured). -/
theorem parseFields_pm (cfg : Config) (env : Env) (cmds : Cmds)
    (w : World) (room : Room) (fields : List String)
    (hhook : cfg.parseMessage = none) :
    parseFields cfg env cmds w room "pm" fields =
      .ok (parsePm cfg env cmds w room fields) := by
  simp [parseFields, hhook]

/-- Claim C6: for every `updateuser` line (with no veto hook configured and
a configured room list): a `fields[0]` differing from the configured account
name produces no state change and no action; a matching name with any
failure flag other than `"1"` terminates the process; the success flag sends
exactly one join request per configured room, in configured order. -/
theorem c6_updateuser (cfg : Config) (env : Env) (cmds : Cmds) (w : World)
    (room : Room) (fields : List String) (rs : List String)
    (hhook : cfg.parseMessage = none) (hrooms : cfg.rooms = some rs) :
    (fields.getD 0 "" ≠ cfg.username →
      parseFields cfg env cmds w room "updateuser" fields = .ok ⟨w, room, []⟩) ∧
    (fields.getD 0 "" = cfg.username → fields.getD 1 "" ≠ "1" →
      parseFields cfg env cmds w room "updateuser" fields =
        .ok ⟨w, room, [.consoleLog "Failed to log in", .processExit]⟩) ∧
    (fields.getD 0 "" = cfg.username → fields.getD 1 "" = "1" →
      parseFields cfg env cmds w room "updateuser" fields =
        .ok ⟨w, room, .consoleLog "Successfully logged in" ::
          rs.map (fun r => Event.clientSend ("|/join " ++ r))⟩) := by
  refine ⟨fun hmis => ?_, fun hname hflag => ?_, fun hname hflag => ?_⟩ <;>
    rw [parseFields_updateuser cfg env cmds w room fields hhook] <;>
    simp only [parseUpdateuser]
  · rw [if_pos hmis]
  · rw [if_neg (not_not_intro hname), if_pos hflag]
  · rw [if_neg (not_not_intro hname), if_neg (not_not_intro hflag), hrooms]

/-- Witness for C6 at a successful login with the fixture room list. -/
theorem c6_updateuser_witness :
    parseFields exCfg exEnv exCmds exWorld exRoom "updateuser" ["Phantom", "1"] =
      .ok ⟨exWorld, exRoom,
        [.consoleLog "Successfully logged in",
         .clientSend "|/join lobby", .clientSend "|/join games"]⟩ :=
  (c6_updateuser exCfg exEnv exCmds exWorld exRoom ["Phantom", "1"]
    ["lobby", "games"] rfl rfl).2.2 rfl rfl

/-- Self chat (lines 183-187/199-203): after the rank refresh, the body is
normalized, the pending-listener table alone decides dispatch, and the
handler returns. -/
theorem parseChatWith_self (cfg : Config) (env : Env) (cmds : Cmds)
    (w : World) (room : Room) (speaker msg : String) (time : Int) (u : Usr)
    (hget : usersGet w speaker = some u) (hself : u.id = w.selfId) :
    parseChatWith cfg env cmds w room speaker msg time =
      ⟨if lookupAssoc u.rooms room.id ≠ some (charAt speaker 0) then
         setUserRoomRank w u.id room.id (charAt speaker 0)
       else w,
       room,
       if toId msg ∈ room.listeners then [.listenerFired (toId msg)] else []⟩ := by
  by_cases hcond : lookupAssoc u.rooms room.id ≠ some (charAt speaker 0) <;>
    by_cases hm : toId msg ∈ room.listeners <;>
    simp [parseChatWith, hget, hself, hcond, hm, setUserRoomRank, updateUserIn]

/-- Claim C1: for every inbound chat line (`c` or `c:`) whose resolved
speaker is the local account's own user, `parse` never invokes
`parseCommand` and never invokes `moderate`; the message body is normalized
to an identifier and, exactly when that identifier is a key of the room's
pending-listener table, the corresponding listener is invoked, after which
processing of the line stops (the trace contains nothing else).  Stated with
no pre-parse veto hook configured. -/
theorem c1_self_chat_listener_only (cfg : Config) (env : Env) (cmds : Cmds)
    (w : World) (room : Room) (t0 f0 : String) (rest : List String) (u : Usr)
    (hhook : cfg.parseMessage = none)
    (hget : usersGet w f0 = some u) (hself : u.id = w.selfId) :
    (∃ pr : ParseOut,
      parseFields cfg env cmds w room "c" (f0 :: rest) = .ok pr ∧
      Event.parseCommandEntered ∉ pr.events ∧
      Event.moderateEntered ∉ pr.events ∧
      pr.events = (if toId (String.intercalate "|" rest) ∈ room.listeners
                   then [.listenerFired (toId (String.intercalate "|" rest))] else [])) ∧
    (∃ pr : ParseOut,
      parseFields cfg env cmds w room "c:" (t0 :: f0 :: rest) = .ok pr ∧
      Event.parseCommandEntered ∉ pr.events ∧
      Event.moderateEntered ∉ pr.events ∧
      pr.events = (if toId (String.intercalate "|" rest) ∈ room.listeners
                   then [.listenerFired (toId (String.intercalate "|" rest))] else [])) := by
  constructor
  · rw [parseFields_c cfg env cmds w room (f0 :: rest) hhook]
    unfold parseChat
    simp only [List.getD_cons_zero, List.drop_succ_cons, List.drop_zero]
    rw [parseChatWith_self cfg env cmds w room f0 (String.intercalate "|" rest)
      env.now u hget hself]
    refine ⟨_, rfl, ?_, ?_, rfl⟩ <;>
      by_cases hm : toId (String.intercalate "|" rest) ∈ room.listeners <;> simp [hm]
  · rw [parseFields_cts cfg env cmds w room (t0 :: f0 :: rest) hhook]
    unfold parseChatTs
    simp only [List.getD_cons_succ, List.getD_cons_zero, List.drop_succ_cons,
      List.drop_zero]
    rw [parseChatWith_self cfg env cmds w room f0 (String.intercalate "|" rest)
      ((parseIntJs t0 10).getD 0 * 1000) u hget hself]
    refine ⟨_, rfl, ?_, ?_, rfl⟩ <;>
      by_cases hm : toId (String.intercalate "|" rest) ∈ room.listeners <;> simp [hm]

/-- Witness for C1: a self chat line whose body matches the registered
listener key fires exactly that listener. -/
theorem c1_self_chat_listener_only_witness :
    ∃ pr : ParseOut,
      parseFields exCfg exEnv exCmds exWorld exRoom "c" [" Phantom", "done"] = .ok pr ∧
      Event.parseCommandEntered ∉ pr.events ∧
      Event.moderateEntered ∉ pr.events ∧
      pr.events = [.listenerFired "done"] := by
  obtain ⟨pr, h1, h2, h3, h4⟩ :=
    (c1_self_chat_listener_only exCfg exEnv exCmds exWorld exRoom "99" " Phantom"
      ["done"] exSelf rfl rfl rfl).1
  exact ⟨pr, h1, h2, h3, by rw [h4]; rfl⟩

/-- Counterexample to claim C9: a `c` chat line from a speaker who is not in
the user registry is silently dropped — `Users.get` (line 178) fails and the
sub-handler aborts with no state change and no dispatch, contradicting "chat
('c'/'c:') and pm handling never abort because the speaker is unknown". -/
theorem c9_counterexample :
    parseFields exCfg exEnv exCmds exWorldNoBob exRoom "c" ["+Bob", "hi"] =
      .ok ⟨exWorldNoBob, exRoom, []⟩ := by
  rfl

/-- Claim C9 as amended: a silent sub-handler abort on an unresolvable user
happens (a) for chat `c`/`c:` whenever the speaker is absent from the
registry (`Users.get`), and (b) for join/leave/rename/pm (the `Users.add`
paths) exactly when the identifier normalizes to the empty string; chat from
an unknown speaker is dropped with no state change and no dispatch. -/
theorem c9_amended_abort_paths (cfg : Config) (env : Env) (cmds : Cmds)
    (w : World) (room : Room) (t0 f0 j0 l0 n0 n1 p0 : String) (rest : List String)
    (hhook : cfg.parseMessage = none) :
    (usersGet w f0 = none →
      parseFields cfg env cmds w room "c" (f0 :: rest) = .ok ⟨w, room, []⟩) ∧
    (usersGet w f0 = none →
      parseFields cfg env cmds w room "c:" (t0 :: f0 :: rest) = .ok ⟨w, room, []⟩) ∧
    (toId j0 = "" →
      parseFields cfg env cmds w room "J" (j0 :: rest) = .ok ⟨w, room, []⟩) ∧
    (toId l0 = "" →
      parseFields cfg env cmds w room "L" (l0 :: rest) = .ok ⟨w, room, []⟩) ∧
    (toId n1 = "" →
      parseFields cfg env cmds w room "N" (n0 :: n1 :: rest) = .ok ⟨w, room, []⟩) ∧
    (toId p0 = "" →
      parseFields cfg env cmds w room "pm" (p0 :: rest) = .ok ⟨w, room, []⟩) := by
  refine ⟨fun h => ?_, fun h => ?_, fun h => ?_, fun h => ?_, fun h => ?_, fun h => ?_⟩
  · rw [parseFields_c cfg env cmds w room (f0 :: rest) hhook]
    simp [parseChat, parseChatWith, h]
  · rw [parseFields_cts cfg env cmds w room (t0 :: f0 :: rest) hhook]
    simp [parseChatTs, parseChatWith, h]
  · rw [parseFields_J cfg env cmds w room (j0 :: rest) hhook]
    simp [parseJoinLike, usersAdd, h]
  · rw [parseFields_L cfg env cmds w room (l0 :: rest) hhook]
    simp [parseLeaveLike, usersAdd, h]
  · rw [parseFields_N cfg env cmds w room (n0 :: n1 :: rest) hhook]
    simp [parseRenameLike, usersAdd, h]
  · rw [parseFields_pm cfg env cmds w room (p0 :: rest) hhook]
    simp [parsePm, usersAdd, h]

/-- Witness for the amended C9: an unknown speaker aborts a `c` line; a pure
punctuation name aborts a `J` line and an `L` line. -/
theorem c9_amended_abort_paths_witness :
    parseFields exCfg exEnv exCmds exWorldNoBob exRoom "c" ["+Bob", "hi"] =
      .ok ⟨exWorldNoBob, exRoom, []⟩ ∧
    parseFields exCfg exEnv exCmds exWorld exRoom "J" ["+ !!"] =
      .ok ⟨exWorld, exRoom, []⟩ ∧
    parseFields exCfg exEnv exCmds exWorld exRoom "L" ["+ !!"] =
      .ok ⟨exWorld, exRoom, []⟩ := by
  refine ⟨?_, ?_, ?_⟩
  · exact ((c9_amended_abort_paths exCfg exEnv exCmds exWorldNoBob exRoom
      "99" "+Bob" "x" "x" "x" "x" "x" ["hi"] rfl).1) rfl
  · exact ((c9_amended_abort_paths exCfg exEnv exCmds exWorld exRoom
      "99" "x" "+ !!" "x" "x" "x" "x" [] rfl).2.2.1) rfl
  · exact ((c9_amended_abort_paths exCfg exEnv exCmds exWorld exRoom
      "99" "x" "x" "+ !!" "x" "x" "x" [] rfl).2.2.2.1) rfl

/-- After a `setAssoc` write, reading the same key yields the written value. -/
theorem lookupAssoc_setAssoc {α : Type} (l : List (String × α)) (k : String) (v : α) :
    lookupAssoc (setAssoc l k v) k = some v := by
  unfold setAssoc
  split
  · rename_i hsome
    unfold lookupAssoc
    induction l with
    | nil => simp at hsome
    | cons p l ih =>
      by_cases hp : p.1 = k
      · simp [List.find?_cons, hp]
      · simp only [List.map_cons, if_neg hp]
        rw [List.find?_cons_of_neg _ (by simpa using hp)]
        refine ih ?_
        rwa [List.find?_cons_of_neg _ (by simpa using hp)] at hsome
  · unfold lookupAssoc
    induction l with
    | nil => simp
    | cons p l ih =>
      rename_i hnone
      by_cases hp : p.1 = k
      · exfalso
        apply hnone
        simp [List.find?_cons, hp]
      · simp only [List.cons_append]
        rw [List.find?_cons_of_neg _ (by simpa using hp)]
        rw [List.find?_cons_of_neg _ (by simpa using hp)] at hnone
        exact ih hnone

/-- An id-preserving update of the matching user is what a lookup after
`List.map` finds. -/
theorem find_update_list (l : List Usr) (id : String) (f : Usr → Usr)
    (hf : ∀ v, (f v).id = v.id) (u : Usr)
    (h : l.find? (fun v => v.id = id) = some u) :
    (l.map (fun v => if v.id = id then f v else v)).find? (fun v => v.id = id) =
      some (f u) := by
  induction l with
  | nil => simp at h
  | cons v l ih =>
    by_cases hv : v.id = id
    · rw [List.find?_cons_of_pos _ (by simpa using hv)] at h
      obtain rfl : v = u := by injection h
      simp only [List.map_cons, if_pos hv]
      rw [List.find?_cons_of_pos _ (by simp [hf, hv])]
    · rw [List.find?_cons_of_neg _ (by simpa using hv)] at h
      simp only [List.map_cons, if_neg hv]
      rw [List.find?_cons_of_neg _ (by simpa using hv)]
      exact ih h

/-- A found user satisfies the lookup predicate. -/
theorem findUser_id (w : World) (id : String) (u : Usr)
    (h : findUser w id = some u) : u.id = id := by
  have := List.find?_some h
  simpa using this

/-- No user matches the lookup after an id-preserving update when none did
before. -/
theorem find_update_list_none (l : List Usr) (id : String) (f : Usr → Usr)
    (h : l.find? (fun v => v.id = id) = none) :
    (l.map (fun v => if v.id = id then f v else v)).find? (fun v => v.id = id) = none := by
  induction l with
  | nil => simp
  | cons v l ih =>
    by_cases hv : v.id = id
    · rw [List.find?_cons_of_pos _ (by simpa using hv)] at h
      exact absurd h (by simp)
    · rw [List.find?_cons_of_neg _ (by simpa using hv)] at h
      simp only [List.map_cons, if_neg hv]
      rw [List.find?_cons_of_neg _ (by simpa using hv)]
      exact ih h

/-- After `user.rooms.set(room, rank)`, the user-side map stores that rank. -/
theorem userRank_setUserRoomRank (w : World) (rid rk : String) (u : Usr)
    (h : findUser w u.id = some u) :
    userRank (setUserRoomRank w u.id rid rk) u.id rid = some rk := by
  unfold userRank setUserRoomRank updateUserIn findUser
  dsimp only
  rw [find_update_list w.users u.id
    (fun v => { v with rooms := setAssoc v.rooms rid rk }) (fun v => rfl) u h]
  simp [lookupAssoc_setAssoc]

/-- A roomData-only update leaves the user-side rank map unchanged. -/
theorem userRank_storeModData (w : World) (id rid : String) (d : Option ModData) :
    userRank (storeModData w id rid d) id rid = userRank w id rid := by
  cases d with
  | none => rfl
  | some d0 =>
    unfold userRank storeModData updateUserIn findUser
    dsimp only
    cases h : w.users.find? (fun v => v.id = id) with
    | none =>
      rw [find_update_list_none w.users id
        (fun v => { v with roomData := setAssoc v.roomData rid d0 }) h]
    | some u =>
      rw [find_update_list w.users id
        (fun v => { v with roomData := setAssoc v.roomData rid d0 }) (fun v => rfl) u h]
      rfl

/-- Searching an appended list when the front contains no match. -/
theorem find_append_none {α : Type} (l1 l2 : List α) (p : α → Bool)
    (h : l1.find? p = none) : (l1 ++ l2).find? p = l2.find? p := by
  induction l1 with
  | nil => simp
  | cons a l ih =>
    by_cases ha : p a
    · rw [List.find?_cons_of_pos _ ha] at h
      exact absurd h (by simp)
    · rw [List.find?_cons_of_neg _ ha] at h
      simp only [List.cons_append]
      rw [List.find?_cons_of_neg _ ha]
      exact ih h

/-- The user `Users.add` returns is afterwards found in the registry. -/
theorem usersAdd_find (w : World) (name : String) (u : Usr) (w2 : World)
    (h : usersAdd w name = some (u, w2)) : findUser w2 u.id = some u := by
  unfold usersAdd at h
  by_cases hid : toId name = ""
  · rw [if_pos hid] at h
    exact absurd h (by simp)
  · rw [if_neg hid] at h
    cases hf : findUser w (toId name) with
    | some v =>
      rw [hf] at h
      dsimp only at h
      simp only [Option.some.injEq, Prod.mk.injEq] at h
      obtain ⟨rfl, rfl⟩ := h
      rw [findUser_id w (toId name) v hf]
      exact hf
    | none =>
      rw [hf] at h
      dsimp only at h
      simp only [Option.some.injEq, Prod.mk.injEq] at h
      obtain ⟨rfl, rfl⟩ := h
      unfold findUser at hf ⊢
      dsimp only
      rw [find_append_none w.users _ _ hf]
      simp

/-- The chat handler never touches the room object (in particular the
room-side user map is left as it was). -/
theorem parseChatWith_room (cfg : Config) (env : Env) (cmds : Cmds)
    (w : World) (room : Room) (speaker msg : String) (time : Int) :
    (parseChatWith cfg env cmds w room speaker msg time).room = room := by
  unfold parseChatWith
  dsimp only
  repeat' split <;> try rfl

/-- After a chat line from a resolved speaker, the user-side map stores the
rank embedded in the line. -/
theorem parseChatWith_userRank (cfg : Config) (env : Env) (cmds : Cmds)
    (w : World) (room : Room) (speaker msg : String) (time : Int) (u : Usr)
    (hget : usersGet w speaker = some u) :
    userRank (parseChatWith cfg env cmds w room speaker msg time).world
      u.id room.id = some (charAt speaker 0) := by
  have hid : u.id = toId speaker := findUser_id w (toId speaker) u hget
  have hfind : findUser w u.id = some u := by rw [hid]; exact hget
  unfold parseChatWith
  rw [hget]
  dsimp only
  by_cases hcond : lookupAssoc u.rooms room.id ≠ some (charAt speaker 0)
  · rw [if_pos hcond]
    have hset : userRank (setUserRoomRank w u.id room.id (charAt speaker 0))
        u.id room.id = some (charAt speaker 0) :=
      userRank_setUserRoomRank w room.id (charAt speaker 0) u hfind
    repeat' split
    all_goals try dsimp only
    all_goals first
      | exact hset
      | rw [userRank_storeModData]; exact hset
  · rw [if_neg hcond]
    have hw : userRank w u.id room.id = some (charAt speaker 0) := by
      unfold userRank
      rw [hfind]
      simpa using not_ne_iff.mp hcond
    repeat' split
    all_goals try dsimp only
    all_goals first
      | exact hw
      | rw [userRank_storeModData]; exact hw

/-- Counterexample to claim C7: processing the chat line `|c|+Bob|hi` in a
state where both maps agree on Bob's rank `" "` leaves the room-side map at
`" "` while the user-side map is updated to `"+"` — the chat handler (line
181) updates only `user.rooms`, so after this rank change the two sides of
the relation disagree. -/
theorem c7_counterexample :
    (parseFields exCfg exEnv exCmds exWorld exRoom "c" ["+Bob", "hi"]).map
      (fun pr => (userRank pr.world "bob" "lobby", lookupAssoc pr.room.users "bob")) =
      .ok (some "+", some " ") := by
  rfl

/-- Claim C7 as amended: the `users` snapshot handler keeps the relation in
sync — each processed entry writes the same rank to the room's user map and
to the user's room map — but the chat (`c`/`c:`) rank refresh writes only
the user-side map and leaves the room object untouched, so the two sides
can disagree after a chat line whose embedded rank differs from the cached
one. -/
theorem c7_amended_rank_sync (cfg : Config) (env : Env) (cmds : Cmds)
    (w : World) (room : Room) (f0 : String) (rest : List String) (u : Usr)
    (hhook : cfg.parseMessage = none) (hget : usersGet w f0 = some u) :
    (∃ pr : ParseOut,
      parseFields cfg env cmds w room "c" (f0 :: rest) = .ok pr ∧
      pr.room = room ∧
      userRank pr.world u.id room.id = some (charAt f0 0)) ∧
    (∀ (w2 : World) (room2 : Room) (entry : String) (u2 : Usr) (w3 : World),
      usersAdd w2 (entry.drop 1) = some (u2, w3) →
      ∃ (w4 : World) (room4 : Room),
        usersSnapshotStep (.ok (w2, room2)) entry = .ok (w4, room4) ∧
        lookupAssoc room4.users u2.id = some (charAt entry 0) ∧
        userRank w4 u2.id room2.id = some (charAt entry 0)) := by
  constructor
  · rw [parseFields_c cfg env cmds w room (f0 :: rest) hhook]
    unfold parseChat
    simp only [List.getD_cons_zero, List.drop_succ_cons, List.drop_zero]
    exact ⟨_, rfl, parseChatWith_room cfg env cmds w room f0 _ env.now,
      parseChatWith_userRank cfg env cmds w room f0 _ env.now u hget⟩
  · intro w2 room2 entry u2 w3 hadd
    unfold usersSnapshotStep
    dsimp only
    rw [hadd]
    refine ⟨_, _, rfl, lookupAssoc_setAssoc room2.users u2.id (charAt entry 0), ?_⟩
    exact userRank_setUserRoomRank w3 room2.id (charAt entry 0) u2
      (usersAdd_find w2 (entry.drop 1) u2 w3 hadd)

/-- Witness for the amended C7: the chat line of the counterexample leaves
the room object unchanged while Bob's own map now stores `"+"`; one snapshot
entry `"+Bob"` writes `"+"` to both sides. -/
theorem c7_amended_rank_sync_witness :
    (∃ pr : ParseOut,
      parseFields exCfg exEnv exCmds exWorld exRoom "c" ["+Bob", "hi"] = .ok pr ∧
      pr.room = exRoom ∧
      userRank pr.world "bob" "lobby" = some "+") ∧
    (∃ (w4 : World) (room4 : Room),
      usersSnapshotStep (.ok (exWorld, exRoom)) "+Bob" = .ok (w4, room4) ∧
      lookupAssoc room4.users "bob" = some "+" ∧
      userRank w4 "bob" "lobby" = some "+") := by
  have h := c7_amended_rank_sync exCfg exEnv exCmds exWorld exRoom "+Bob" ["hi"]
    exBob rfl rfl
  exact ⟨h.1, h.2 exWorld exRoom "+Bob" exBob exWorld rfl⟩

/-- With the three gates open, a cooldown hit (a prior `lastAction` within
`PUNISHMENT_COOLDOWN` of `time`) returns right after recording the message:
no rule runs, nothing is said, points and `lastAction` are untouched. -/
theorem moderate_cooldown_stops (cfg : Config) (env : Env) (selfId : String)
    (room : Room) (userId userName msg : String) (t : Int) (d0 : Option ModData)
    (pp : List (String × Int)) (pa : List (String × String))
    (hrank : env.hasRank selfId room.id "%" = true)
    (hallow : allowModerationOk cfg.allowModeration room.id = true)
    (hpp : cfg.punishmentPoints = some pp)
    (hpa : cfg.punishmentActions = some pa)
    (hla : (d0.getD ⟨[], 0, 0⟩).lastAction ≠ 0)
    (hcd : t - (d0.getD ⟨[], 0, 0⟩).lastAction < PUNISHMENT_COOLDOWN) :
    moderate cfg env selfId room userId userName msg t d0 =
      ⟨some { d0.getD ⟨[], 0, 0⟩ with
              messages := ⟨normalizeMessage msg, t⟩ :: (d0.getD ⟨[], 0, 0⟩).messages },
       []⟩ := by
  simp only [moderate]
  rw [hrank, hallow, hpp, hpa]
  simp only [Bool.not_true, Bool.false_eq_true, if_false]
  dsimp only
  rw [if_pos ⟨hla, hcd⟩]

/-- With the three gates open, every branch of `moderate` stores a record
whose history is the incoming (normalized) message prepended to the previous
history. -/
theorem moderate_records_message (cfg : Config) (env : Env) (selfId : String)
    (room : Room) (userId userName msg : String) (t : Int) (d0 : Option ModData)
    (pp : List (String × Int)) (pa : List (String × String))
    (hrank : env.hasRank selfId room.id "%" = true)
    (hallow : allowModerationOk cfg.allowModeration room.id = true)
    (hpp : cfg.punishmentPoints = some pp)
    (hpa : cfg.punishmentActions = some pa) :
    ∃ d2 : ModData,
      (moderate cfg env selfId room userId userName msg t d0).data = some d2 ∧
      d2.messages = ⟨normalizeMessage msg, t⟩ :: (d0.getD ⟨[], 0, 0⟩).messages := by
  simp only [moderate]
  rw [hrank, hallow, hpp, hpa]
  simp only [Bool.not_true, Bool.false_eq_true, if_false]
  dsimp only
  split
  · exact ⟨_, rfl, rfl⟩
  · generalize (((match cfg.moderate with
      | some f => f (normalizeMessage msg) room.id userId t
      | none => []) ++
      (if floodCond ({ message := normalizeMessage msg, time := t } ::
          (d0.getD ⟨[], 0, 0⟩).messages) t then
        [⟨"mute", "flooding", "please do not flood the chat"⟩] else []) ++
      (if stretchCond (normalizeMessage msg) then
        [⟨"verbalwarn", "stretching", "please do not stretch"⟩] else []) ++
      (if capsCond (normalizeMessage msg) then
        [⟨"verbalwarn", "caps", "please do not abuse caps"⟩] else [])) :
        List Punishment) = P
    repeat' split
    all_goals exact ⟨_, rfl, rfl⟩

/-- Claim C3: for every gated moderation evaluation on a (user, room)
record, (1) the incoming message is first recorded in the record's history;
(2) if a prior punishment exists (`lastAction` non-zero) and `time`
minus `lastAction` is below 5000 ms, evaluation stops with no new punishment
(no say, points and `lastAction` untouched); hence (3) when one call applies
a punishment at `t` (it sets `lastAction = t`), a second qualifying
violation within 5 seconds of `t` yields no applied punishment, so two
violations within the window yield at most one applied punishment. -/
theorem c3_cooldown_suppression (cfg : Config) (env : Env) (selfId : String)
    (room : Room) (userId userName msg : String) (t : Int) (d0 : Option ModData)
    (pp : List (String × Int)) (pa : List (String × String))
    (hrank : env.hasRank selfId room.id "%" = true)
    (hallow : allowModerationOk cfg.allowModeration room.id = true)
    (hpp : cfg.punishmentPoints = some pp)
    (hpa : cfg.punishmentActions = some pa) :
    (∃ d2 : ModData,
      (moderate cfg env selfId room userId userName msg t d0).data = some d2 ∧
      d2.messages = ⟨normalizeMessage msg, t⟩ :: (d0.getD ⟨[], 0, 0⟩).messages) ∧
    ((d0.getD ⟨[], 0, 0⟩).lastAction ≠ 0 →
      t - (d0.getD ⟨[], 0, 0⟩).lastAction < PUNISHMENT_COOLDOWN →
      moderate cfg env selfId room userId userName msg t d0 =
        ⟨some { d0.getD ⟨[], 0, 0⟩ with
                messages := ⟨normalizeMessage msg, t⟩ ::
                  (d0.getD ⟨[], 0, 0⟩).messages },
         []⟩) ∧
    (∀ (msg2 : String) (t2 : Int) (d1 : ModData),
      (moderate cfg env selfId room userId userName msg t d0).data = some d1 →
      d1.lastAction = t → t ≠ 0 → t2 - t < PUNISHMENT_COOLDOWN →
      moderate cfg env selfId room userId userName msg2 t2 (some d1) =
        ⟨some { d1 with messages := ⟨normalizeMessage msg2, t2⟩ :: d1.messages },
         []⟩) := by
  refine ⟨moderate_records_message cfg env selfId room userId userName msg t d0
      pp pa hrank hallow hpp hpa,
    fun hla hcd => moderate_cooldown_stops cfg env selfId room userId userName
      msg t d0 pp pa hrank hallow hpp hpa hla hcd,
    fun msg2 t2 d1 hd1 hlast ht hcd2 => ?_⟩
  have := moderate_cooldown_stops cfg env selfId room userId userName msg2 t2
    (some d1) pp pa hrank hallow hpp hpa
    (by simpa [hlast] using ht) (by simpa [hlast] using hcd2)
  simpa using this

/-- Witness for C3: with `lastAction = 5000`, a message at `t = 6000` is
only recorded — no punishment, no trace. -/
theorem c3_cooldown_suppression_witness :
    moderate exCfg exEnv "phantom" exRoom "bob" "Bob" "hello" 6000
      (some ⟨[⟨"x", 5000⟩], 2, 5000⟩) =
      ⟨some ⟨[⟨"hello", 6000⟩, ⟨"x", 5000⟩], 2, 5000⟩, []⟩ := by
  have h := (c3_cooldown_suppression exCfg exEnv "phantom" exRoom "bob" "Bob"
    "hello" 6000 (some ⟨[⟨"x", 5000⟩], 2, 5000⟩)
    [("verbalwarn", 1), ("mute", 2), ("hourmute", 3), ("roomban", 4)]
    [("3", "hourmute"), ("4", "roomban")] rfl rfl rfl rfl).2.1
    (by decide) (by decide)
  simpa using h

/-- Claim C4: (1) on a history with non-increasing timestamps (as a real run
records them, newest first), the flood test of line 349 — index 4 within
`FLOOD_MAXIMUM_TIME` of `time` — holds exactly when the 5 most recent
recorded messages, the current one included, all fall within the 5-second
window of `time` (the spec's wording); and (2) in the concrete run of five
messages spanning 4 seconds followed by a sixth 10 seconds later, exactly
one flood punishment is said, on the 5th message, and the 6th produces
nothing. -/
theorem c4_flood_rule :
    (∀ (msgs : List Msg) (t : Int),
      List.Pairwise (fun a b => b.time ≤ a.time) msgs →
      (floodCond msgs t ↔ floodSpecWindow msgs t)) ∧
    moderateSeq exCfg exEnv "phantom" exRoom "bob" "Bob" exFloodSeq none =
      (some ⟨[⟨"f", 15000⟩, ⟨"e", 5000⟩, ⟨"d", 4000⟩, ⟨"c", 3000⟩,
              ⟨"b", 2000⟩, ⟨"a", 1000⟩], 2, 5000⟩,
       [[], [], [], [],
        [.said "lobby" "/mute Bob, please do not flood the chat"], []]) := by
  constructor
  · intro msgs t hsorted
    unfold floodCond floodSpecWindow
    have h45 : FLOOD_MINIMUM_MESSAGES - 1 = 4 := rfl
    constructor
    · rintro ⟨hlen, h4⟩
      refine ⟨hlen, fun m hm => ?_⟩
      have hlen4 : 4 < msgs.length := by
        have : (5 : Nat) ≤ msgs.length := hlen
        omega
      rw [h45, List.getD_eq_getElem msgs _ hlen4] at h4
      obtain ⟨i, hi, hgi⟩ := List.mem_iff_getElem.mp hm
      have hit : i < 5 := by
        have := hi
        simp only [List.length_take] at this
        omega
      have hil : i < msgs.length := by omega
      rw [List.getElem_take] at hgi
      rcases Nat.lt_or_ge i 4 with hlt | hge
      · have hrel := List.pairwise_iff_getElem.mp hsorted i 4 hil hlen4 hlt
        have : msgs[4].time ≤ msgs[i].time := hrel
        rw [← hgi]
        omega
      · have : i = 4 := by omega
        subst this
        rw [← hgi]
        exact h4
    · rintro ⟨hlen, hall⟩
      have hlen4 : 4 < msgs.length := by
        have : (5 : Nat) ≤ msgs.length := hlen
        omega
      refine ⟨hlen, ?_⟩
      rw [h45, List.getD_eq_getElem msgs _ hlen4]
      apply hall
      have h4t : 4 < (msgs.take 5).length := by
        simp only [List.length_take]
        omega
      have : (msgs.take 5)[4] = msgs[4] := List.getElem_take ..
      rw [← this]
      exact List.getElem_mem h4t
  · rfl

/-- Witness for C4's universally quantified part at a concrete sorted
history: the code's test and the spec's window agree. -/
theorem c4_flood_rule_witness :
    floodCond [⟨"e", 5000⟩, ⟨"d", 4000⟩, ⟨"c", 3000⟩, ⟨"b", 2000⟩, ⟨"a", 1000⟩]
      5000 ↔
    floodSpecWindow [⟨"e", 5000⟩, ⟨"d", 4000⟩, ⟨"c", 3000⟩, ⟨"b", 2000⟩,
      ⟨"a", 1000⟩] 5000 :=
  c4_flood_rule.1 [⟨"e", 5000⟩, ⟨"d", 4000⟩, ⟨"c", 3000⟩, ⟨"b", 2000⟩,
    ⟨"a", 1000⟩] 5000 (by decide)
